import Mathlib

/-!
Verification development for the module acquisition & installation pipeline
(source resolver, archive extractor, file installer, orchestrator).
Rust code is shallowly embedded: filesystem, subprocess and network effects
are represented by explicit oracle inputs, paths by component lists, and
each embedded function mirrors the control flow of its Rust counterpart.
-/

/-- Splits a character list on a separator character (auxiliary). -/
def splitCharAux (sep : Char) : List Char → List Char → List (List Char)
  | [], acc => [acc.reverse]
  | c :: rest, acc =>
    if c == sep then acc.reverse :: splitCharAux sep rest []
    else splitCharAux sep rest (c :: acc)

/-- Splits a character list on a separator character. -/
def splitChar (sep : Char) (l : List Char) : List (List Char) :=
  splitCharAux sep l []

/-- Model of a filesystem path: an absolute-flag plus path components,
mirroring Rust `PathBuf` for the operations the code uses. -/
structure RPath where
  abs : Bool
  comps : List String
deriving DecidableEq, Repr

/-- Parse of `PathBuf::from(string)`: leading slash means absolute,
components split on the path separator (empty components dropped). -/
def parsePath (s : String) : RPath :=
  let abs := match s.data with
    | '/' :: _ => true
    | _ => false
  ⟨abs, ((splitChar '/' s.data).filter (fun c => c ≠ [])).map (fun c => String.mk c)⟩

/-- Component processing of the `path_clean` crate: drop `.`, resolve `..`
against a previous real component, keep leading `..` on relative paths and
drop it at the root of absolute ones. The crate renders an empty result as
`.` which this model renders as the empty component list. -/
def cleanAux (abs : Bool) : List String → List String → List String
  | [], acc => acc.reverse
  | c :: rest, acc =>
    if c == "." then cleanAux abs rest acc
    else if c == ".." then
      match acc with
      | [] => if abs then cleanAux abs rest [] else cleanAux abs rest [".."]
      | t :: acc2 =>
        if t == ".." then cleanAux abs rest (c :: t :: acc2)
        else cleanAux abs rest acc2
    else cleanAux abs rest (c :: acc)

/-- `PathBuf::clean()` from the `path_clean` crate. -/
def pathClean (p : RPath) : RPath :=
  ⟨p.abs, cleanAux p.abs p.comps []⟩

/-- Rust `Path::join`: an absolute right-hand side replaces the left. -/
def RPath.join (a b : RPath) : RPath :=
  if b.abs then b else ⟨a.abs, a.comps ++ b.comps⟩

/-- Rust `path.starts_with("..")`: the first component is `..`. -/
def startsWithParent (p : RPath) : Bool :=
  match p.comps with
  | c :: _ => c == ".."
  | [] => false

/-- Renders an `RPath` back to a string (used for placeholder substitution
in external-extractor command lines). -/
def pathToString (p : RPath) : String :=
  (if p.abs then "/" else "") ++ String.intercalate "/" p.comps

deriving instance DecidableEq for Except

/-- True exactly when an `Except` value is an error. -/
def isFailure {ε α : Type} : Except ε α → Bool
  | .error _ => true
  | .ok _ => false

/-- `FileInstaller::get_local_base_path` (src/file_installer.rs lines 61-75):
cleans the manifest root, cleans the configured `local_files` subdirectory and
rejects it when absolute or starting with a parent traversal, then cleans the
user-supplied path — but the second guard re-tests `local_files` instead of the
user path, so only absoluteness of the user path is actually rejected. -/
def get_local_base_path (manifest_root : RPath) (local_files : Option String)
    (file_path : String) : Except String RPath :=
  let manifest_path := pathClean manifest_root
  let lf := match local_files with
    | none => RPath.mk false []
    | some p => pathClean (parsePath p)
  if lf.abs || startsWithParent lf then .error "Invalid local_files value"
  else
    let fp := pathClean (parsePath file_path)
    if fp.abs || startsWithParent lf then .error "Invalid local value"
    else .ok ((manifest_path.join lf).join fp)

/-- `ModuleDownload::get_local_mod_path` (src/get_module.rs lines 74-88):
same structure as `get_local_base_path`, with `local_mods` as the configured
subdirectory; the second guard likewise re-tests `local_mods` instead of the
user-supplied module path. -/
def get_local_mod_path (manifest_root : RPath) (local_mods : Option String)
    (local_mod_name : String) : Except String RPath :=
  let manifest_path := pathClean manifest_root
  let lm := match local_mods with
    | none => RPath.mk false []
    | some p => pathClean (parsePath p)
  if lm.abs || startsWithParent lm then .error "Invalid local_mods value"
  else
    let mod_name := pathClean (parsePath local_mod_name)
    if mod_name.abs || startsWithParent lm then .error "Invalid local value"
    else .ok ((manifest_path.join lm).join mod_name)

/-- C3: a Local-origin user path that escapes via a parent-traversal segment is
not rejected: both resolvers return the escaping joined path even though the
normalized user path starts with `..`; only absolute user paths are refused. -/
theorem local_traversal_not_rejected :
    get_local_base_path ⟨true, ["home", "me"]⟩ (some "mods") "../escape"
      = .ok ⟨true, ["home", "me", "mods", "..", "escape"]⟩
    ∧ get_local_mod_path ⟨true, ["home", "me"]⟩ (some "mods") "../escape"
      = .ok ⟨true, ["home", "me", "mods", "..", "escape"]⟩
    ∧ startsWithParent (pathClean (parsePath "../escape")) = true := by
  refine ⟨?_, ?_, ?_⟩ <;> decide

/-- Single-component glob match of the `globwalk` crate syntax: `*` matches any
character sequence within a component, `?` one character, other characters match
case-insensitively (the builder sets `case_insensitive(true)`). -/
def charsMatch : List Char → List Char → Bool
  | [], s => s.isEmpty
  | '*' :: ps, s => (s.tails).any (fun t => charsMatch ps t)
  | q :: ps, s =>
    match s with
    | [] => false
    | c :: cs =>
      (if q == '?' then true else q.toLower == c.toLower) && charsMatch ps cs

/-- Componentwise glob match of a pattern against a path relative to the walk
root: `**` spans any number of components, other components match via
`charsMatch`. Models the matcher of the external `globwalk` crate. -/
def globMatch : List (List Char) → List (List Char) → Bool
  | [], s => s.isEmpty
  | pc :: ps, s =>
    if pc == ['*', '*'] then (s.tails).any (fun t => globMatch ps t)
    else
      match s with
      | [] => false
      | c :: cs => charsMatch pc c && globMatch ps cs

/-- Splits a glob pattern string into its slash-separated components. -/
def parseGlobPat (p : String) : List (List Char) :=
  (splitChar '/' p.data).filter (fun c => c ≠ [])

/-- `entry.trim().is_empty()`: every character is whitespace. -/
def isBlank (s : String) : Bool :=
  s.data.all (fun c => c.isWhitespace)

/-- Output of the layout collaborator.
Modelled from the spec: `Layout::to_glob` (crate `archive_layout`, not under
src/) computes glob patterns and a strip depth from the module name and source;
the extractor consumes the resulting pair, represented here directly. -/
structure GlobDesc where
  patterns : List String
  strip : Nat
deriving DecidableEq, Repr

/-- `Extractor::files_to_move` (src/archive_extractor.rs lines 177-198): fail
when the pattern set is empty or all patterns are blank, otherwise walk the
unpacked tree with `min_depth(strip)` and `max_depth(strip + 1)` — entry depth
between `strip` and `strip + 1` inclusive — keeping case-insensitive glob
matches, deduplicated (the Rust code collects into a `HashSet`). Entries are
the proper descendants of the temp dir as component lists. -/
def files_to_move (module_name : String) (layout : GlobDesc)
    (tree : List (List String)) : Except String (List (List String)) :=
  if layout.patterns.isEmpty || layout.patterns.all isBlank then
    .error ("No file patterns to copy from archive for module " ++ module_name)
  else
    .ok ((tree.filter (fun e =>
      decide (layout.strip ≤ e.length) && decide (e.length ≤ layout.strip + 1) &&
      layout.patterns.any (fun pat =>
        globMatch (parseGlobPat pat) (e.map String.data)))).dedup)

/-- Destination tree of the game directory, keyed by entry name at its root
(the name under which a moved item lands), with an abstract content tag. -/
abbrev DestFs := List (String × Nat)

/-- Lookup of a destination entry by name. -/
def fsFind (fs : DestFs) (name : String) : Option Nat :=
  match fs.find? (fun kv => kv.1 == name) with
  | some kv => some kv.2
  | none => none

/-- `file_name()` of an item inside the temp dir: its last component. -/
def fileNameOf (item : List String) : String :=
  (item.getLast?).getD ""

/-- Observable effects of one extraction run. -/
inductive Event where
  | unpacked : Event
  | precopyRan : RPath → Event
  | toolRan : String → List String → Event
  | moved : List String → Event
deriving DecidableEq, Repr

/-- Whether an event is a precopy-command run. -/
def Event.isPrecopy : Event → Bool
  | .precopyRan _ => true
  | _ => false

/-- Whether an event is a file move into the destination. -/
def Event.isMoved : Event → Bool
  | .moved _ => true
  | _ => false

/-- Whether an event is an external-tool invocation. -/
def Event.isTool : Event → Bool
  | .toolRan _ _ => true
  | _ => false

/-- `fs_extra::move_items` with default options (`overwrite = false`,
`skip_exist = false`): items are placed one by one under their file name; a
name already present in the destination is an error that stops the move,
leaving earlier moves in place and never overwriting an existing entry. -/
def moveItems (items : List (List String)) (fs : DestFs) :
    Except String Unit × DestFs × List Event :=
  match items with
  | [] => (.ok (), fs, [])
  | it :: rest =>
    let nm := fileNameOf it
    match fsFind fs nm with
    | some _ => (.error ("cannot move, destination already exists: " ++ nm), fs, [])
    | none =>
      let out := moveItems rest ((nm, 0) :: fs)
      (out.1, out.2.1, .moved it :: out.2.2)

/-- `Extractor::move_from_temp_dir` (src/archive_extractor.rs lines 163-175):
compute the selection, wrapping a selection failure, then move the items into
the game directory. -/
def move_from_temp_dir (module_name : String) (layout : GlobDesc)
    (tree : List (List String)) (fs : DestFs) :
    Except String Unit × DestFs × List Event :=
  match files_to_move module_name layout tree with
  | .error e => (.error ("Failed to prepare list of files to move -> " ++ e), fs, [])
  | .ok items => moveItems items fs

/-- Outcome of launching a child process: the spawn itself can fail, otherwise
the child completes with an exit code (`success()` means code 0). -/
inductive SpawnOutcome where
  | spawnError : String → SpawnOutcome
  | completed : Nat → SpawnOutcome
deriving DecidableEq, Repr

/-- One configured external extractor: executable plus argument template.
Modelled from the spec: `crate::settings::ExtractorCommand` is not under src/;
the spec describes it as an executable and an argument list containing
`$\x7binput\x7d` and `$\x7btarget\x7d` placeholders. -/
structure ExtractorCommand where
  command : String
  args : List String
deriving DecidableEq, Repr

/-- Configuration surface consumed by the extractor.
Modelled from the spec: `crate::settings::Config` and `crate::lowercase` are
not under src/; the spec states the external tool is looked up by the exact
extension string, so the extractor map is keyed by plain strings compared
verbatim. -/
structure Config where
  extract_location : Option String := none
  extractors : List (String × ExtractorCommand) := []
deriving DecidableEq, Repr

/-- `PrecopyCommand` (module/pre_copy_command.rs, consumed here): executable,
optional arguments, optional working subdirectory under the extraction dir. -/
structure PrecopyCommand where
  command : String
  args : Option (List String) := none
  subdir : Option String := none
deriving DecidableEq, Repr

/-- `ConcreteLocation` as consumed by the extractor: the layout collaborator
output and the optional precopy command (patch/replace specs are consumed by
later stages and are not needed here). -/
structure ConcreteLocation where
  layout : GlobDesc
  precopy : Option PrecopyCommand := none
deriving DecidableEq, Repr

/-- Oracle inputs standing for the effects of one extraction run: archive file
open, decoder open, temp-dir creation, full unpack, the status of the precopy
process and of the external tool process, and the tree of entries the unpack
left in the temp dir (paths relative to it). -/
structure World where
  fileOpen : Except String Unit
  archOpen : Except String Unit
  tempDir : Except String RPath
  unpack : Except String Unit
  precopyStatus : SpawnOutcome
  toolStatus : SpawnOutcome
  tempTree : List (List String)
deriving Repr

/-- Result of one extraction: outcome, final destination tree, effect trace. -/
structure XOut where
  res : Except String Unit
  fs : DestFs
  trace : List Event
deriving DecidableEq, Repr

/-- Working directory of the precopy command (src/archive_extractor.rs lines
203-206): the temp dir, or its configured subdirectory. -/
def precopyWorkdir (tempPath : RPath) (pc : PrecopyCommand) : RPath :=
  match pc.subdir with
  | none => tempPath
  | some sd => tempPath.join (parsePath sd)

/-- `Extractor::run_precopy_command` (src/archive_extractor.rs lines 200-225):
a spawn failure or a non-success exit status is an error. -/
def run_precopy_command (st : SpawnOutcome) : Except String Unit :=
  match st with
  | .spawnError e => .error ("failure running precopy command " ++ e)
  | .completed 0 => .ok ()
  | .completed _ => .error "precopy command failed with status"

/-- Whether `p` occurs at the start of `s`. -/
def isPrefOf : List Char → List Char → Bool
  | [], _ => true
  | _ :: _, [] => false
  | a :: as2, b :: bs => a == b && isPrefOf as2 bs

/-- Rust `str::contains` for a plain pattern. -/
def containsSub (pat : List Char) : List Char → Bool
  | [] => pat.isEmpty
  | c :: rest => isPrefOf pat (c :: rest) || containsSub pat rest

/-- Fuel-indexed scan for `replaceSub`; the fuel bounds the number of consumed
characters, so `s.length` is always enough. -/
def replaceSubAux (pat rep : List Char) : Nat → List Char → List Char
  | 0, s => s
  | _ + 1, [] => []
  | fuel + 1, c :: rest =>
    if pat ≠ [] ∧ isPrefOf pat (c :: rest) = true then
      rep ++ replaceSubAux pat rep fuel ((c :: rest).drop pat.length)
    else
      c :: replaceSubAux pat rep fuel rest

/-- Rust `str::replace`: every non-overlapping occurrence of `pat`, scanned
left to right, is replaced by `rep`. -/
def replaceSub (pat rep s : List Char) : List Char :=
  replaceSubAux pat rep s.length s

/-- `Extractor::extractor_command` (src/archive_extractor.rs lines 264-269):
look the extension up in the configured extractor map, error when absent. -/
def extractor_command (cfg : Config) (extension : String) :
    Except String ExtractorCommand :=
  match cfg.extractors.find? (fun kv => kv.1 == extension) with
  | some kv => .ok kv.2
  | none => .error ("No extractor configured for " ++ extension)

/-- `Extractor::external_extractor_tool` (src/archive_extractor.rs lines
227-262): look up the extractor, substitute the archive path for
`$\x7binput\x7d` and the temp dir for `$\x7btarget\x7d` in each argument
(checked in that order), then run the command via `output()` — only a spawn
failure is an error; the exit status of the completed child is not examined. -/
def external_extractor_tool (cfg : Config) (archive : RPath) (extension : String)
    (tempPath : RPath) (st : SpawnOutcome) : Except String Unit × List Event :=
  match extractor_command cfg extension with
  | .error e => (.error e, [])
  | .ok exc =>
    let inputPat := ['$', '\x7b', 'i', 'n', 'p', 'u', 't', '\x7d']
    let targetPat := ['$', '\x7b', 't', 'a', 'r', 'g', 'e', 't', '\x7d']
    let args := exc.args.map (fun arg =>
      if containsSub inputPat arg.data then
        String.mk (replaceSub inputPat (pathToString archive).data arg.data)
      else if containsSub targetPat arg.data then
        String.mk (replaceSub targetPat (pathToString tempPath).data arg.data)
      else arg)
    match st with
    | .spawnError e => (.error ("could not run external extractor - " ++ e),
        [.toolRan exc.command args])
    | .completed _ => (.ok (), [.toolRan exc.command args])

/-- Shared tail of every extraction path: move the selection into the game
directory, wrapping a failure with the caller context (src/archive_extractor.rs
lines 97-99, 119-121, 137-139). -/
def doMove (module_name : String) (layout : GlobDesc) (tree : List (List String))
    (fs : DestFs) (evs : List Event) : XOut :=
  match move_from_temp_dir module_name layout tree fs with
  | (.error e, fs2, mevs) =>
    ⟨.error ("Failed to copy file for archive from temp dir to game dir -> " ++ e),
      fs2, evs ++ mevs⟩
  | (.ok _, fs2, mevs) => ⟨.ok (), fs2, evs ++ mevs⟩

/-- `Extractor::extract_zip` (src/archive_extractor.rs lines 72-103): open the
archive, open the zip decoder, create the temp dir, extract fully, then — only
in this zip/iemod path — run the configured precopy command (a failure aborts),
and finally move the selection into the game directory. -/
def extract_zip (w : World) (module_name : String) (loc : ConcreteLocation)
    (fs : DestFs) : XOut :=
  match w.fileOpen with
  | .error e => ⟨.error ("Could not open archive - " ++ e), fs, []⟩
  | .ok _ =>
    match w.archOpen with
    | .error e => ⟨.error ("Could not open zip archive - " ++ e), fs, []⟩
    | .ok _ =>
      match w.tempDir with
      | .error e => ⟨.error ("Extraction of zip mod failed - " ++ e), fs, []⟩
      | .ok tempPath =>
        match w.unpack with
        | .error e => ⟨.error ("Zip extraction failed - " ++ e), fs, []⟩
        | .ok _ =>
          match loc.precopy with
          | some pc =>
            match run_precopy_command w.precopyStatus with
            | .error e =>
              ⟨.error ("Could not run precopy command for mod - " ++ e), fs,
                [.unpacked, .precopyRan (precopyWorkdir tempPath pc)]⟩
            | .ok _ =>
              doMove module_name loc.layout w.tempTree fs
                [.unpacked, .precopyRan (precopyWorkdir tempPath pc)]
          | none => doMove module_name loc.layout w.tempTree fs [.unpacked]

/-- `Extractor::extract_tgz` (src/archive_extractor.rs lines 105-124): open the
archive, create the temp dir, unpack the gzip-compressed tar, then move the
selection. No precopy command is run on this path. -/
def extract_tgz (w : World) (module_name : String) (loc : ConcreteLocation)
    (fs : DestFs) : XOut :=
  match w.fileOpen with
  | .error e => ⟨.error e, fs, []⟩
  | .ok _ =>
    match w.tempDir with
    | .error e => ⟨.error ("Extraction of tgz mod failed - " ++ e), fs, []⟩
    | .ok _ =>
      match w.unpack with
      | .error e => ⟨.error ("Tgz extraction failed - " ++ e), fs, []⟩
      | .ok _ => doMove module_name loc.layout w.tempTree fs [.unpacked]

/-- `Extractor::extract_external` (src/archive_extractor.rs lines 126-142):
create the temp dir, run the external extractor tool, then move the selection.
No precopy command is run on this path. -/
def extract_external (cfg : Config) (w : World) (archive : RPath)
    (extension : String) (module_name : String) (loc : ConcreteLocation)
    (fs : DestFs) : XOut :=
  match w.tempDir with
  | .error e => ⟨.error ("Extraction of mod failed - " ++ e), fs, []⟩
  | .ok tempPath =>
    match external_extractor_tool cfg archive extension tempPath w.toolStatus with
    | (.error e, evs) =>
      ⟨.error ("Extraction with external tool failed - " ++ e), fs, evs⟩
    | (.ok _, evs) => doMove module_name loc.layout w.tempTree fs evs

/-- Rust `Path::extension()` on a file name: the part after the last dot,
except that a name with no dot, or a leading-dot name with no other dot, has
no extension. -/
def extOf (name : String) : Option String :=
  match splitChar '.' name.data with
  | [] => none
  | [_] => none
  | first :: rest =>
    if first = [] && rest.length = 1 then none
    else (rest.getLast?).map (fun c => String.mk c)

/-- Rust `Path::file_stem()` on a file name: the part before the extension. -/
def stemOf (name : String) : String :=
  match extOf name with
  | none => name
  | some _ =>
    String.mk (List.intercalate ['.'] ((splitChar '.' name.data).dropLast))

/-- `file_name()` of a path: its last component. -/
def fileNameOfPath (p : RPath) : String :=
  (p.comps.getLast?).getD ""

/-- `Extractor::extract_files` / `_extract_files` (src/archive_extractor.rs
lines 36-70): dispatch on the archive extension, compared verbatim — `zip` and
`iemod` to the zip decoder, `tgz` to the tar+gzip decoder, `gz` to the tar+gzip
decoder only when the inner stem ends in `.tar`, no extension is an error, and
any other extension goes to the external tool path. -/
def extract_files (cfg : Config) (w : World) (archive : RPath)
    (module_name : String) (loc : ConcreteLocation) (fs : DestFs) : XOut :=
  match extOf (fileNameOfPath archive) with
  | none => ⟨.error "archive file has no extension", fs, []⟩
  | some ext =>
    if ext = "zip" ∨ ext = "iemod" then extract_zip w module_name loc fs
    else if ext = "tgz" then extract_tgz w module_name loc fs
    else if ext = "gz" then
      match extOf (stemOf (fileNameOfPath archive)) with
      | some sub =>
        if sub = "tar" then extract_tgz w module_name loc fs
        else ⟨.error "unsupported gz file", fs, []⟩
      | none => ⟨.error "unsupported gz file", fs, []⟩
    else extract_external cfg w archive ext module_name loc fs

/-- Fixture configuration for the external-extractor claims: one `rar` tool. -/
def c1cfg : Config :=
  ⟨none, [("rar", ⟨"unrar", ["x", "$\x7binput\x7d", "-o", "$\x7btarget\x7d"]⟩)]⟩

/-- Fixture world whose external tool completes with exit code 1. -/
def c1w : World :=
  ⟨.ok (), .ok (), .ok ⟨true, ["tmp"]⟩, .ok (), .completed 0, .completed 1, [["x"]]⟩

/-- C1 counterexample: an external-tool extraction whose child process exits
with status 1 still returns success — `output()` only fails on spawn errors and
the exit status is never examined. -/
theorem external_nonzero_exit_gives_success :
    (extract_files c1cfg c1w ⟨false, ["mod.rar"]⟩ "m" ⟨⟨["*"], 0⟩, none⟩ []).res
      = .ok ()
    ∧ c1w.toolStatus = .completed 1 :=
  ⟨by decide, by decide⟩

/-- C1 (amended): for an archive delegated to an external extractor tool, a
spawn failure makes `extract_files` fail, but the exit status of a completed
child is ignored — the result is identical for every exit code. -/
theorem external_tool_spawn_fail_errors_exit_ignored
    (cfg : Config) (w : World) (archive : RPath) (mn : String)
    (loc : ConcreteLocation) (fs : DestFs) (ext e : String) (c c2 : Nat)
    (hx : extOf (fileNameOfPath archive) = some ext)
    (h1 : ext ≠ "zip") (h2 : ext ≠ "iemod") (h3 : ext ≠ "tgz")
    (h4 : ext ≠ "gz") :
    isFailure (extract_files cfg { w with toolStatus := .spawnError e }
        archive mn loc fs).res = true
    ∧ extract_files cfg { w with toolStatus := .completed c } archive mn loc fs
      = extract_files cfg { w with toolStatus := .completed c2 }
          archive mn loc fs := by
  have hd : ∀ st, extract_files cfg { w with toolStatus := st } archive mn loc fs
      = extract_external cfg { w with toolStatus := st } archive ext mn loc fs := by
    intro st
    simp [extract_files, hx, h1, h2, h3, h4]
  constructor
  · rw [hd]
    unfold extract_external
    cases htd : ({ w with toolStatus := SpawnOutcome.spawnError e } : World).tempDir with
    | error err => simp [htd, isFailure]
    | ok tp =>
      simp only [htd]
      unfold external_extractor_tool
      cases hec : extractor_command cfg ext with
      | error err => simp [hec, isFailure]
      | ok exc => simp [hec, isFailure]
  · rw [hd, hd]
    unfold extract_external
    have htw : ∀ st, ({ w with toolStatus := st } : World).tempDir = w.tempDir := by
      intro st; rfl
    cases htd : w.tempDir with
    | error err => simp [htw, htd]
    | ok tp =>
      simp only [htw, htd]
      unfold external_extractor_tool
      cases hec : extractor_command cfg ext with
      | error err => simp [hec]
      | ok exc => simp [hec]

/-- C1 witness: the amended statement at the concrete `rar` fixture. -/
theorem external_tool_spawn_fail_errors_exit_ignored_witness :
    isFailure (extract_files c1cfg { c1w with toolStatus := .spawnError "boom" }
        ⟨false, ["mod.rar"]⟩ "m" ⟨⟨["*"], 0⟩, none⟩ []).res = true
    ∧ extract_files c1cfg { c1w with toolStatus := .completed 1 }
        ⟨false, ["mod.rar"]⟩ "m" ⟨⟨["*"], 0⟩, none⟩ []
      = extract_files c1cfg { c1w with toolStatus := .completed 0 }
          ⟨false, ["mod.rar"]⟩ "m" ⟨⟨["*"], 0⟩, none⟩ [] :=
  external_tool_spawn_fail_errors_exit_ignored c1cfg c1w ⟨false, ["mod.rar"]⟩
    "m" ⟨⟨["*"], 0⟩, none⟩ [] "rar" "boom" 1 0
    (by decide) (by decide) (by decide) (by decide) (by decide)

/-- Every event emitted by `moveItems` is a move. -/
theorem moveItems_trace_moved (items : List (List String)) (fs : DestFs) :
    ((moveItems items fs).2.2).all Event.isMoved = true := by
  induction items generalizing fs with
  | nil => simp [moveItems]
  | cons it rest ih =>
    cases h : fsFind fs (fileNameOf it) with
    | some v => simp [moveItems, h]
    | none => simp [moveItems, h, Event.isMoved, ih]

/-- Every event emitted by `move_from_temp_dir` is a move. -/
theorem move_trace_moved (mn : String) (layout : GlobDesc)
    (tree : List (List String)) (fs : DestFs) :
    ((move_from_temp_dir mn layout tree fs).2.2).all Event.isMoved = true := by
  unfold move_from_temp_dir
  cases h : files_to_move mn layout tree with
  | error e => simp
  | ok items => simpa using moveItems_trace_moved items fs

/-- `doMove` appends the move trace to the given prefix, and mirrors the
outcome and destination tree of `move_from_temp_dir`. -/
theorem doMove_spec (mn : String) (layout : GlobDesc) (tree : List (List String))
    (fs : DestFs) (evs : List Event) :
    (doMove mn layout tree fs evs).trace
      = evs ++ (move_from_temp_dir mn layout tree fs).2.2
    ∧ isFailure (doMove mn layout tree fs evs).res
      = isFailure (move_from_temp_dir mn layout tree fs).1
    ∧ (doMove mn layout tree fs evs).fs
      = (move_from_temp_dir mn layout tree fs).2.1 := by
  unfold doMove
  rcases hmv : move_from_temp_dir mn layout tree fs with ⟨r, fs2, mevs⟩
  cases r <;> simp [hmv, isFailure]

/-- A move event is not a precopy event. -/
theorem moved_not_precopy (ev : Event) (h : ev.isMoved = true) :
    (!ev.isPrecopy) = true := by
  cases ev <;> simp_all [Event.isMoved, Event.isPrecopy]

/-- A `doMove` run adds no precopy event beyond its prefix. -/
theorem doMove_no_precopy (mn : String) (layout : GlobDesc)
    (tree : List (List String)) (fs : DestFs) (evs : List Event)
    (hev : evs.all (fun ev => !ev.isPrecopy) = true) :
    ((doMove mn layout tree fs evs).trace).all (fun ev => !ev.isPrecopy) = true := by
  rw [(doMove_spec mn layout tree fs evs).1, List.all_append, hev, Bool.true_and]
  have h3 := move_trace_moved mn layout tree fs
  rw [List.all_eq_true] at h3 ⊢
  intro x hx
  exact moved_not_precopy x (h3 x hx)

/-- Fixture world for the precopy claims: everything succeeds. -/
def c2w : World :=
  ⟨.ok (), .ok (), .ok ⟨true, ["tmp"]⟩, .ok (), .completed 0, .completed 0, [["x"]]⟩

/-- Fixture location with a configured precopy command. -/
def c2loc : ConcreteLocation := ⟨⟨["*"], 0⟩, some ⟨"setup", none, some "sub"⟩⟩

/-- C2 counterexample: a tgz extraction with a precopy command configured runs
to success without ever invoking the precopy command. -/
theorem tgz_precopy_not_run :
    (extract_files ⟨none, []⟩ c2w ⟨false, ["mod.tgz"]⟩ "m" c2loc []).res = .ok ()
    ∧ ((extract_files ⟨none, []⟩ c2w ⟨false, ["mod.tgz"]⟩ "m"
        c2loc []).trace).all (fun ev => !ev.isPrecopy) = true
    ∧ c2loc.precopy = some ⟨"setup", none, some "sub"⟩ :=
  ⟨by decide, by decide, by decide⟩

/-- C2 (amended): only the zip/iemod path runs a configured precopy command —
there it runs after the unpack and before file selection, with working
directory the temp dir or its configured subdirectory, and a non-zero exit or
spawn failure aborts the extraction; the tgz/gz-tar path and the external-tool
path never run the precopy command. -/
theorem precopy_zip_only
    (w : World) (mn : String) (loc : ConcreteLocation) (fs : DestFs)
    (pc : PrecopyCommand) (tempPath : RPath)
    (w2 : World) (mn2 : String) (loc2 : ConcreteLocation) (fs2 : DestFs)
    (cfg3 : Config) (w3 : World) (a3 : RPath) (x3 mn3 : String)
    (loc3 : ConcreteLocation) (fs3 : DestFs)
    (hpc : loc.precopy = some pc)
    (hopen : w.fileOpen = .ok ()) (harch : w.archOpen = .ok ())
    (htemp : w.tempDir = .ok tempPath) (hunp : w.unpack = .ok ()) :
    (extract_zip w mn loc fs).trace
      = .unpacked :: .precopyRan (precopyWorkdir tempPath pc)
          :: (match w.precopyStatus with
              | .completed 0 => (move_from_temp_dir mn loc.layout w.tempTree fs).2.2
              | _ => [])
    ∧ isFailure (extract_zip w mn loc fs).res
      = (match w.precopyStatus with
         | .completed 0 => isFailure (move_from_temp_dir mn loc.layout w.tempTree fs).1
         | _ => true)
    ∧ ((move_from_temp_dir mn loc.layout w.tempTree fs).2.2).all Event.isMoved = true
    ∧ ((extract_tgz w2 mn2 loc2 fs2).trace).all (fun ev => !ev.isPrecopy) = true
    ∧ ((extract_external cfg3 w3 a3 x3 mn3 loc3 fs3).trace).all
        (fun ev => !ev.isPrecopy) = true := by
  refine ⟨?_, ?_, move_trace_moved mn loc.layout w.tempTree fs, ?_, ?_⟩
  · unfold extract_zip
    rw [hopen, harch, htemp, hunp, hpc]
    cases hps : w.precopyStatus with
    | spawnError e => simp [run_precopy_command]
    | completed n =>
      cases n with
      | zero => simp [run_precopy_command, (doMove_spec mn loc.layout w.tempTree fs _).1]
      | succ k => simp [run_precopy_command]
  · unfold extract_zip
    rw [hopen, harch, htemp, hunp, hpc]
    cases hps : w.precopyStatus with
    | spawnError e => simp [run_precopy_command, isFailure]
    | completed n =>
      cases n with
      | zero => simp [run_precopy_command, (doMove_spec mn loc.layout w.tempTree fs _).2.1]
      | succ k => simp [run_precopy_command, isFailure]
  · unfold extract_tgz
    cases h1 : w2.fileOpen with
    | error e => simp
    | ok u =>
      cases h2 : w2.tempDir with
      | error e => simp
      | ok tp =>
        cases h3 : w2.unpack with
        | error e => simp
        | ok u2 => exact doMove_no_precopy mn2 loc2.layout w2.tempTree fs2 _ (by decide)
  · unfold extract_external
    cases h1 : w3.tempDir with
    | error e => simp
    | ok tp =>
      unfold external_extractor_tool
      cases h2 : extractor_command cfg3 x3 with
      | error e => simp
      | ok exc =>
        cases h3 : w3.toolStatus with
        | spawnError e => simp [Event.isPrecopy]
        | completed n =>
          exact doMove_no_precopy mn3 loc3.layout w3.tempTree fs3 _ (by simp [Event.isPrecopy])

/-- C2 witness: the amended statement at a concrete zip extraction whose
precopy command succeeds, and concrete tgz/external runs. -/
theorem precopy_zip_only_witness :
    (extract_zip c2w "m" c2loc []).trace
      = .unpacked :: .precopyRan (precopyWorkdir ⟨true, ["tmp"]⟩ ⟨"setup", none, some "sub"⟩)
          :: (match c2w.precopyStatus with
              | .completed 0 => (move_from_temp_dir "m" c2loc.layout c2w.tempTree []).2.2
              | _ => [])
    ∧ isFailure (extract_zip c2w "m" c2loc []).res
      = (match c2w.precopyStatus with
         | .completed 0 => isFailure (move_from_temp_dir "m" c2loc.layout c2w.tempTree []).1
         | _ => true)
    ∧ ((move_from_temp_dir "m" c2loc.layout c2w.tempTree []).2.2).all Event.isMoved = true
    ∧ ((extract_tgz c2w "m2" c2loc []).trace).all (fun ev => !ev.isPrecopy) = true
    ∧ ((extract_external ⟨none, []⟩ c2w ⟨false, ["a.rar"]⟩ "rar" "m3"
        c2loc []).trace).all (fun ev => !ev.isPrecopy) = true :=
  precopy_zip_only c2w "m" c2loc [] ⟨"setup", none, some "sub"⟩ ⟨true, ["tmp"]⟩
    c2w "m2" c2loc [] ⟨none, []⟩ c2w ⟨false, ["a.rar"]⟩ "rar" "m3" c2loc []
    (by decide) (by decide) (by decide) (by decide) (by decide)

/-- C4 counterexample: with strip depth 1 and pattern `*`, the selection keeps
the entry `modname` at depth 1 — equal to the strip depth, not one level
beyond it — because the walker runs with `min_depth(strip)`. -/
theorem strip_depth_selects_at_strip_depth :
    files_to_move "m" ⟨["*"], 1⟩
        [["modname"], ["modname", "data"], ["modname", "data", "a.txt"]]
      = .ok [["modname"]]
    ∧ (["modname"] : List String).length ≠ 1 + 1 :=
  ⟨by decide, by decide⟩

/-- C4 (amended): every entry selected by `files_to_move` has depth between
the strip depth and strip depth plus one, inclusive; entries at depth strip
plus two or more (or shallower than strip) are never selected. -/
theorem files_to_move_depth_bounds
    (mn : String) (layout : GlobDesc) (tree : List (List String))
    (sel : List (List String)) (e : List String)
    (h : files_to_move mn layout tree = .ok sel) (he : e ∈ sel) :
    layout.strip ≤ e.length ∧ e.length ≤ layout.strip + 1 := by
  unfold files_to_move at h
  split at h
  · simp at h
  · rw [Except.ok.injEq] at h
    subst h
    rw [List.mem_dedup, List.mem_filter] at he
    obtain ⟨-, hp⟩ := he
    simp only [Bool.and_eq_true, decide_eq_true_eq] at hp
    exact hp.1

/-- C4 witness: the depth bounds at a concrete two-level selection. -/
theorem files_to_move_depth_bounds_witness :
    (1 : Nat) ≤ (["a", "b"] : List String).length
    ∧ (["a", "b"] : List String).length ≤ 1 + 1 :=
  files_to_move_depth_bounds "m" ⟨["*/*"], 1⟩ [["a", "b"]] [["a", "b"]]
    ["a", "b"] (by decide) (by decide)

/-- C5: for an archive extension outside the built-in set, extraction consults
the extractor map with that extension string; when no extractor is configured
for it, `extract_files` fails, moves nothing, and never invokes a tool. -/
theorem external_missing_extractor_fails
    (cfg : Config) (w : World) (archive : RPath) (mn : String)
    (loc : ConcreteLocation) (fs : DestFs) (ext : String)
    (hx : extOf (fileNameOfPath archive) = some ext)
    (h1 : ext ≠ "zip") (h2 : ext ≠ "iemod") (h3 : ext ≠ "tgz")
    (h4 : ext ≠ "gz")
    (hcfg : cfg.extractors.find? (fun kv => kv.1 == ext) = none) :
    isFailure (extract_files cfg w archive mn loc fs).res = true
    ∧ (extract_files cfg w archive mn loc fs).fs = fs
    ∧ ((extract_files cfg w archive mn loc fs).trace).all
        (fun ev => !ev.isTool) = true := by
  have hd : extract_files cfg w archive mn loc fs
      = extract_external cfg w archive ext mn loc fs := by
    simp [extract_files, hx, h1, h2, h3, h4]
  rw [hd]
  unfold extract_external
  cases htd : w.tempDir with
  | error e => simp [isFailure]
  | ok tp => simp [external_extractor_tool, extractor_command, hcfg, isFailure]

/-- C5 witness: a `7z` archive with an empty extractor map. -/
theorem external_missing_extractor_fails_witness :
    isFailure (extract_files ⟨none, []⟩ c2w ⟨false, ["mod.7z"]⟩ "m"
        ⟨⟨["*"], 0⟩, none⟩ []).res = true
    ∧ (extract_files ⟨none, []⟩ c2w ⟨false, ["mod.7z"]⟩ "m"
        ⟨⟨["*"], 0⟩, none⟩ []).fs = []
    ∧ ((extract_files ⟨none, []⟩ c2w ⟨false, ["mod.7z"]⟩ "m"
        ⟨⟨["*"], 0⟩, none⟩ []).trace).all (fun ev => !ev.isTool) = true :=
  external_missing_extractor_fails ⟨none, []⟩ c2w ⟨false, ["mod.7z"]⟩ "m"
    ⟨⟨["*"], 0⟩, none⟩ [] "7z"
    (by decide) (by decide) (by decide) (by decide) (by decide) (by decide)

/-- `ManifestModule`: the manifest `Module` as consumed by the orchestrator: a name and an optional concrete
location (the manifest-level `Ref` indirection is resolved out of scope). -/
structure ManifestModule where
  name : String
  location : Option ConcreteLocation
deriving Repr

/-- Oracle inputs of one `get_module` run: the retrieval outcome, the
canonicalized current process directory (`std::env::current_dir` followed by
`CanonPath::new`), and the outcomes of the extract, patch and replace stages. -/
structure OrchWorld where
  retrieve : Except String RPath
  cwdCanon : Except String RPath
  extractOutcome : Except String Unit
  patchOutcome : Except String Unit
  replaceOutcome : Except String Unit
deriving Repr

/-- Stage effects of one `get_module` run, each recording the destination
directory the stage was pointed at. -/
inductive OrchEvent where
  | extractedTo : RPath → OrchEvent
  | patchedAt : RPath → OrchEvent
  | replacedAt : RPath → OrchEvent
deriving DecidableEq, Repr

/-- `Extractor` state (src/archive_extractor.rs lines 20-34): the game
directory files are moved into (line 172 moves into `self.game_dir`) and the
configuration. -/
structure Extractor where
  game_dir : RPath
  config : Config
deriving Repr

/-- `ModuleDownload` state (src/get_module.rs lines 16-37): `new` builds the
extractor with the same `game_dir` it receives. -/
structure ModuleDownload where
  game_dir : RPath
  config : Config
  extractor : Extractor
deriving Repr

/-- `ModuleDownload::new` (src/get_module.rs lines 27-37). -/
def ModuleDownload.new (config : Config) (game_dir : RPath) : ModuleDownload :=
  ⟨game_dir, config, ⟨game_dir, config⟩⟩

/-- `ModuleDownload::get_module` (src/get_module.rs lines 42-59): fail without
a location; retrieve the archive; compute `dest` as the canonicalized current
directory; then extract via `self.extractor` — whose destination is the
extractor's own `game_dir` field — and run patch and replace against `dest`. -/
def get_module (md : ModuleDownload) (w : OrchWorld) (m : ManifestModule) :
    Except String Unit × List OrchEvent :=
  match m.location with
  | none => (.error ("No location provided to retrieve missing module " ++ m.name), [])
  | some _loc =>
    match w.retrieve with
    | .error e => (.error ("retrieve archive failed for module " ++ m.name ++ " -> " ++ e), [])
    | .ok _archive =>
      match w.cwdCanon with
      | .error e => (.error e, [])
      | .ok dest =>
        match w.extractOutcome with
        | .error e => (.error e, [.extractedTo md.extractor.game_dir])
        | .ok _ =>
          match w.patchOutcome with
          | .error e => (.error e, [.extractedTo md.extractor.game_dir, .patchedAt dest])
          | .ok _ =>
            match w.replaceOutcome with
            | .error e =>
              (.error e, [.extractedTo md.extractor.game_dir, .patchedAt dest,
                .replacedAt dest])
            | .ok _ =>
              (.ok (), [.extractedTo md.extractor.game_dir, .patchedAt dest,
                .replacedAt dest])

/-- Fixture world for the orchestrator claims: every stage succeeds and the
canonicalized current directory is `/cwd`. -/
def c6w : OrchWorld :=
  ⟨.ok ⟨true, ["cache", "m.zip"]⟩, .ok ⟨true, ["cwd"]⟩, .ok (), .ok (), .ok ()⟩

/-- C6 counterexample: an orchestrator constructed with game directory `/game`
extracts into `/game` even though the canonicalized current directory is
`/cwd`; only the patch and replace stages use the current directory. -/
theorem extract_dest_not_cwd :
    (get_module (ModuleDownload.new ⟨none, []⟩ ⟨true, ["game"]⟩) c6w
        ⟨"m", some ⟨⟨["*"], 0⟩, none⟩⟩).2
      = [.extractedTo ⟨true, ["game"]⟩, .patchedAt ⟨true, ["cwd"]⟩,
          .replacedAt ⟨true, ["cwd"]⟩]
    ∧ (⟨true, ["game"]⟩ : RPath) ≠ ⟨true, ["cwd"]⟩
    ∧ c6w.cwdCanon = .ok ⟨true, ["cwd"]⟩ :=
  ⟨by decide, by decide, by decide⟩

/-- C6 (amended): the extract stage of `get_module` targets the game directory
the orchestrator was constructed with, while the canonicalized current process
directory is the destination of the patch and replace stages. -/
theorem get_module_extract_dest
    (cfg : Config) (g : RPath) (w : OrchWorld) (m : ManifestModule)
    (loc : ConcreteLocation) (a dest : RPath)
    (hloc : m.location = some loc) (hret : w.retrieve = .ok a)
    (hcwd : w.cwdCanon = .ok dest) :
    (get_module (ModuleDownload.new cfg g) w m).2
      = .extractedTo g
          :: (match w.extractOutcome with
              | .error _ => []
              | .ok _ =>
                .patchedAt dest
                  :: (match w.patchOutcome with
                      | .error _ => []
                      | .ok _ => [.replacedAt dest])) := by
  unfold get_module
  rw [hloc, hret, hcwd]
  cases hx : w.extractOutcome with
  | error e => simp [ModuleDownload.new]
  | ok u =>
    cases hp : w.patchOutcome with
    | error e => simp [ModuleDownload.new]
    | ok u2 =>
      cases hr : w.replaceOutcome with
      | error e => simp [ModuleDownload.new]
      | ok u3 => simp [ModuleDownload.new]

/-- C6 witness: the amended statement at the concrete fixture orchestrator. -/
theorem get_module_extract_dest_witness :
    (get_module (ModuleDownload.new ⟨none, []⟩ ⟨true, ["game"]⟩) c6w
        ⟨"m", some ⟨⟨["*"], 0⟩, none⟩⟩).2
      = .extractedTo ⟨true, ["game"]⟩
          :: (match c6w.extractOutcome with
              | .error _ => []
              | .ok _ =>
                .patchedAt ⟨true, ["cwd"]⟩
                  :: (match c6w.patchOutcome with
                      | .error _ => []
                      | .ok _ => [.replacedAt ⟨true, ["cwd"]⟩])) :=
  get_module_extract_dest ⟨none, []⟩ ⟨true, ["game"]⟩ c6w
    ⟨"m", some ⟨⟨["*"], 0⟩, none⟩⟩ ⟨⟨["*"], 0⟩, none⟩ ⟨true, ["cache", "m.zip"]⟩
    ⟨true, ["cwd"]⟩ (by decide) (by decide) (by decide)

/-- An empty or all-blank pattern set makes `files_to_move` fail. -/
theorem files_to_move_blank (mn : String) (layout : GlobDesc)
    (tree : List (List String))
    (hp : layout.patterns = [] ∨ layout.patterns.all isBlank = true) :
    files_to_move mn layout tree
      = .error ("No file patterns to copy from archive for module " ++ mn) := by
  unfold files_to_move
  rcases hp with h | h
  · simp [h]
  · simp [h]

/-- An empty or all-blank pattern set makes `move_from_temp_dir` fail with the
destination untouched and no move event. -/
theorem move_from_temp_dir_blank (mn : String) (layout : GlobDesc)
    (tree : List (List String)) (fs : DestFs)
    (hp : layout.patterns = [] ∨ layout.patterns.all isBlank = true) :
    move_from_temp_dir mn layout tree fs
      = (.error ("Failed to prepare list of files to move -> "
          ++ ("No file patterns to copy from archive for module " ++ mn)), fs, []) := by
  unfold move_from_temp_dir
  rw [files_to_move_blank mn layout tree hp]

/-- An empty or all-blank pattern set makes `doMove` fail with the destination
untouched and exactly the prefix trace. -/
theorem doMove_blank (mn : String) (layout : GlobDesc)
    (tree : List (List String)) (fs : DestFs) (evs : List Event)
    (hp : layout.patterns = [] ∨ layout.patterns.all isBlank = true) :
    isFailure (doMove mn layout tree fs evs).res = true
    ∧ (doMove mn layout tree fs evs).fs = fs
    ∧ (doMove mn layout tree fs evs).trace = evs := by
  unfold doMove
  rw [move_from_temp_dir_blank mn layout tree fs hp]
  simp [isFailure]

/-- Blank-pattern behavior of the zip path. -/
theorem blank_patterns_zip (w : World) (mn : String) (loc : ConcreteLocation)
    (fs : DestFs)
    (hp : loc.layout.patterns = [] ∨ loc.layout.patterns.all isBlank = true) :
    isFailure (extract_zip w mn loc fs).res = true
    ∧ (extract_zip w mn loc fs).fs = fs
    ∧ ((extract_zip w mn loc fs).trace).all (fun ev => !ev.isMoved) = true := by
  unfold extract_zip
  cases h1 : w.fileOpen with
  | error e => simp [isFailure]
  | ok u =>
    cases h2 : w.archOpen with
    | error e => simp [isFailure]
    | ok u2 =>
      cases h3 : w.tempDir with
      | error e => simp [isFailure]
      | ok tp =>
        cases h4 : w.unpack with
        | error e => simp [isFailure]
        | ok u3 =>
          cases h5 : loc.precopy with
          | none =>
            obtain ⟨a, b, c⟩ := doMove_blank mn loc.layout w.tempTree fs [.unpacked] hp
            exact ⟨a, b, by rw [c]; simp [Event.isMoved]⟩
          | some pc =>
            cases h6 : run_precopy_command w.precopyStatus with
            | error e => simp [isFailure, Event.isMoved]
            | ok u4 =>
              obtain ⟨a, b, c⟩ := doMove_blank mn loc.layout w.tempTree fs
                [.unpacked, .precopyRan (precopyWorkdir tp pc)] hp
              exact ⟨a, b, by rw [c]; simp [Event.isMoved]⟩

/-- Blank-pattern behavior of the tgz path. -/
theorem blank_patterns_tgz (w : World) (mn : String) (loc : ConcreteLocation)
    (fs : DestFs)
    (hp : loc.layout.patterns = [] ∨ loc.layout.patterns.all isBlank = true) :
    isFailure (extract_tgz w mn loc fs).res = true
    ∧ (extract_tgz w mn loc fs).fs = fs
    ∧ ((extract_tgz w mn loc fs).trace).all (fun ev => !ev.isMoved) = true := by
  unfold extract_tgz
  cases h1 : w.fileOpen with
  | error e => simp [isFailure]
  | ok u =>
    cases h2 : w.tempDir with
    | error e => simp [isFailure]
    | ok tp =>
      cases h3 : w.unpack with
      | error e => simp [isFailure]
      | ok u2 =>
        obtain ⟨a, b, c⟩ := doMove_blank mn loc.layout w.tempTree fs [.unpacked] hp
        exact ⟨a, b, by rw [c]; simp [Event.isMoved]⟩

/-- Blank-pattern behavior of the external-tool path. -/
theorem blank_patterns_external (cfg : Config) (w : World) (archive : RPath)
    (ext : String) (mn : String) (loc : ConcreteLocation) (fs : DestFs)
    (hp : loc.layout.patterns = [] ∨ loc.layout.patterns.all isBlank = true) :
    isFailure (extract_external cfg w archive ext mn loc fs).res = true
    ∧ (extract_external cfg w archive ext mn loc fs).fs = fs
    ∧ ((extract_external cfg w archive ext mn loc fs).trace).all
        (fun ev => !ev.isMoved) = true := by
  unfold extract_external
  cases h1 : w.tempDir with
  | error e => simp [isFailure]
  | ok tp =>
    unfold external_extractor_tool
    cases h2 : extractor_command cfg ext with
    | error e => simp [isFailure]
    | ok exc =>
      cases h3 : w.toolStatus with
      | spawnError e => simp [isFailure, Event.isMoved]
      | completed n =>
        obtain ⟨a, b, c⟩ := doMove_blank mn loc.layout w.tempTree fs _ hp
        exact ⟨a, b, by rw [c]; simp [Event.isMoved]⟩

/-- C7: when the computed pattern set is empty or consists only of blank
patterns, `extract_files` fails, the destination tree is unchanged, and no
move event occurs — on every format path and for every oracle outcome. -/
theorem blank_patterns_fail_untouched (cfg : Config) (w : World)
    (archive : RPath) (mn : String) (loc : ConcreteLocation) (fs : DestFs)
    (hp : loc.layout.patterns = [] ∨ loc.layout.patterns.all isBlank = true) :
    isFailure (extract_files cfg w archive mn loc fs).res = true
    ∧ (extract_files cfg w archive mn loc fs).fs = fs
    ∧ ((extract_files cfg w archive mn loc fs).trace).all
        (fun ev => !ev.isMoved) = true := by
  cases hx : extOf (fileNameOfPath archive) with
  | none =>
    have hd : extract_files cfg w archive mn loc fs
        = ⟨.error "archive file has no extension", fs, []⟩ := by
      simp [extract_files, hx]
    rw [hd]
    exact ⟨rfl, rfl, rfl⟩
  | some ext =>
    by_cases hz : ext = "zip" ∨ ext = "iemod"
    · have hd : extract_files cfg w archive mn loc fs = extract_zip w mn loc fs := by
        simp [extract_files, hx, hz]
      rw [hd]
      exact blank_patterns_zip w mn loc fs hp
    · by_cases ht : ext = "tgz"
      · have hd : extract_files cfg w archive mn loc fs = extract_tgz w mn loc fs := by
          simp [extract_files, hx, hz, ht]
        rw [hd]
        exact blank_patterns_tgz w mn loc fs hp
      · by_cases hg : ext = "gz"
        · cases hs : extOf (stemOf (fileNameOfPath archive)) with
          | none =>
            have hd : extract_files cfg w archive mn loc fs
                = ⟨.error "unsupported gz file", fs, []⟩ := by
              simp [extract_files, hx, hz, ht, hg, hs]
            rw [hd]
            exact ⟨rfl, rfl, rfl⟩
          | some sub =>
            by_cases hst : sub = "tar"
            · have hd : extract_files cfg w archive mn loc fs
                  = extract_tgz w mn loc fs := by
                simp [extract_files, hx, hz, ht, hg, hs, hst]
              rw [hd]
              exact blank_patterns_tgz w mn loc fs hp
            · have hd : extract_files cfg w archive mn loc fs
                  = ⟨.error "unsupported gz file", fs, []⟩ := by
                simp [extract_files, hx, hz, ht, hg, hs, hst]
              rw [hd]
              exact ⟨rfl, rfl, rfl⟩
        · have hd : extract_files cfg w archive mn loc fs
              = extract_external cfg w archive ext mn loc fs := by
            simp [extract_files, hx, hz, ht, hg]
          rw [hd]
          exact blank_patterns_external cfg w archive ext mn loc fs hp

/-- C7 witness: a zip extraction with an empty pattern set. -/
theorem blank_patterns_fail_untouched_witness :
    isFailure (extract_files ⟨none, []⟩ c2w ⟨false, ["mod.zip"]⟩ "m"
        ⟨⟨[], 0⟩, none⟩ [("pre", 5)]).res = true
    ∧ (extract_files ⟨none, []⟩ c2w ⟨false, ["mod.zip"]⟩ "m"
        ⟨⟨[], 0⟩, none⟩ [("pre", 5)]).fs = [("pre", 5)]
    ∧ ((extract_files ⟨none, []⟩ c2w ⟨false, ["mod.zip"]⟩ "m"
        ⟨⟨[], 0⟩, none⟩ [("pre", 5)]).trace).all (fun ev => !ev.isMoved) = true :=
  blank_patterns_fail_untouched ⟨none, []⟩ c2w ⟨false, ["mod.zip"]⟩ "m"
    ⟨⟨[], 0⟩, none⟩ [("pre", 5)] (Or.inl rfl)

/-- Unfolding of `fsFind` over a cons cell. -/
theorem fsFind_cons (k : String) (v : Nat) (fs : DestFs) (nm : String) :
    fsFind ((k, v) :: fs) nm = if k == nm then some v else fsFind fs nm := by
  unfold fsFind
  cases h : (k == nm) <;> simp [List.find?_cons, h]

/-- When some item collides with an entry already in the destination,
`moveItems` fails and the pre-existing entry keeps its content. -/
theorem moveItems_keeps_existing (items : List (List String)) (fs : DestFs)
    (nm : String) (c : Nat)
    (hex : fsFind fs nm = some c)
    (hit : ∃ it ∈ items, fileNameOf it = nm) :
    isFailure (moveItems items fs).1 = true
    ∧ fsFind (moveItems items fs).2.1 nm = some c := by
  induction items generalizing fs with
  | nil =>
    rcases hit with ⟨it, hmem, -⟩
    simp at hmem
  | cons it0 rest ih =>
    cases hf : fsFind fs (fileNameOf it0) with
    | some v => simp [moveItems, hf, isFailure, hex]
    | none =>
      have hne : fileNameOf it0 ≠ nm := by
        intro he
        rw [he, hex] at hf
        exact Option.noConfusion hf
      have hex2 : fsFind ((fileNameOf it0, 0) :: fs) nm = some c := by
        rw [fsFind_cons]
        simp [hne, hex]
      have hit2 : ∃ it ∈ rest, fileNameOf it = nm := by
        rcases hit with ⟨it, hmem, hfn⟩
        rcases List.mem_cons.mp hmem with h | h
        · exact absurd hfn (h ▸ hne)
        · exact ⟨it, h, hfn⟩
      have hrec := ih ((fileNameOf it0, 0) :: fs) hex2 hit2
      simpa [moveItems, hf] using hrec

/-- C8: moving a selected item whose destination name already exists makes the
move step fail, and the pre-existing destination entry keeps its content. -/
theorem move_collision_fails_keeps_existing
    (mn : String) (layout : GlobDesc) (tree : List (List String)) (fs : DestFs)
    (items : List (List String)) (it : List String) (c : Nat)
    (hsel : files_to_move mn layout tree = .ok items)
    (hit : it ∈ items)
    (hex : fsFind fs (fileNameOf it) = some c) :
    isFailure (move_from_temp_dir mn layout tree fs).1 = true
    ∧ fsFind (move_from_temp_dir mn layout tree fs).2.1 (fileNameOf it) = some c := by
  unfold move_from_temp_dir
  rw [hsel]
  exact moveItems_keeps_existing items fs (fileNameOf it) c hex ⟨it, hit, rfl⟩

/-- C8 witness: a selected `x` colliding with an existing destination `x`. -/
theorem move_collision_fails_keeps_existing_witness :
    isFailure (move_from_temp_dir "m" ⟨["*"], 0⟩ [["x"]] [("x", 7)]).1 = true
    ∧ fsFind (move_from_temp_dir "m" ⟨["*"], 0⟩ [["x"]] [("x", 7)]).2.1
        (fileNameOf ["x"]) = some 7 :=
  move_collision_fails_keeps_existing "m" ⟨["*"], 0⟩ [["x"]] [("x", 7)]
    [["x"]] ["x"] 7 (by decide) (by decide) (by decide)

/-- Whether a character is a hexadecimal digit. -/
def isHexCh (c : Char) : Bool :=
  c.isDigit || ('a' ≤ c && c ≤ 'f') || ('A' ≤ c && c ≤ 'F')

/-- Value of one hexadecimal digit. -/
def hexVal (c : Char) : Nat :=
  if c.isDigit then c.toNat - '0'.toNat
  else if 'a' ≤ c ∧ c ≤ 'f' then c.toNat - 'a'.toNat + 10
  else if 'A' ≤ c ∧ c ≤ 'F' then c.toNat - 'A'.toNat + 10
  else 0

/-- Decode of a percent-encoded character stream: `%` followed by two hex
digits becomes the encoded byte, anything else passes through. Models the
external `percent_encoding` crate (with lossy UTF-8 at the character level). -/
def percentDecodeChars : List Char → List Char
  | [] => []
  | '%' :: a :: b :: rest =>
    if isHexCh a && isHexCh b then
      Char.ofNat (16 * hexVal a + hexVal b) :: percentDecodeChars rest
    else '%' :: percentDecodeChars (a :: b :: rest)
  | c :: rest => c :: percentDecodeChars rest

/-- Percent-decoding of a string. -/
def percentDecode (s : String) : String :=
  String.mk (percentDecodeChars s.data)

/-- `GithubDescriptor` (module/location/github.rs, consumed by `save_name`). -/
inductive GithubDescriptor where
  | release : Option String → String → GithubDescriptor
  | commit : String → GithubDescriptor
  | branch : String → GithubDescriptor
  | tag : String → GithubDescriptor
deriving DecidableEq, Repr

/-- `Source` (src/module/location/mod.rs lines 45-50): the tagged union of
module payload origins; the Http case carries the raw URL and optional
rename. -/
inductive Source where
  | http : String → Option String → Source
  | github : String → String → GithubDescriptor → Source
  | absolute : String → Source
  | localSrc : String → Source
deriving DecidableEq, Repr

/-- Outcome of `url::Url::parse` as far as `save_name` consumes it: the host
and the path segments (`path_segments()` is `none` for cannot-be-a-base
URLs). Models the external `url` crate abstractly. -/
structure ParsedUrl where
  host : Option String
  path_segments : Option (List String)
deriving DecidableEq, Repr

/-- `Source::save_name` (src/module/location/mod.rs lines 82-116),
parameterized by the URL parser: Http uses the rename when present, otherwise
the percent-decoded last path segment, failing when the URL does not parse or
exposes no usable segment; Absolute and Local yield the empty path; Github
yields the asset name or a `name-ref.zip` composite. -/
def save_name (parseUrl : String → Except String ParsedUrl)
    (module_name : String) : Source → Except String String
  | .http url rename =>
    match rename with
    | some r => .ok r
    | none =>
      match parseUrl url with
      | .error e => .error ("Could not parse url - " ++ e)
      | .ok u =>
        match u.path_segments with
        | none => .error "Could not decide archive name - provide one with rename field"
        | some segs =>
          match segs.getLast? with
          | some seg => .ok (percentDecode seg)
          | none => .error "Could not decide archive name - provide one with rename field"
  | .absolute _ => .ok ""
  | .localSrc _ => .ok ""
  | .github _ _ d =>
    match d with
    | .release _ asset => .ok asset
    | .commit c => .ok (module_name ++ "-" ++ c ++ ".zip")
    | .branch b => .ok (module_name ++ "-" ++ b ++ ".zip")
    | .tag t => .ok (module_name ++ "-" ++ t ++ ".zip")

/-- C9: for an Http source without a rename whose URL parses, `save_name`
returns the percent-decoded final path segment, and errors when the URL
exposes no path segment at all. -/
theorem http_save_name_last_segment
    (parseUrl : String → Except String ParsedUrl) (url mn : String)
    (u : ParsedUrl) (h : parseUrl url = .ok u) :
    save_name parseUrl mn (.http url none)
      = (match u.path_segments with
         | none => .error "Could not decide archive name - provide one with rename field"
         | some segs =>
           match segs.getLast? with
           | some seg => .ok (percentDecode seg)
           | none => .error "Could not decide archive name - provide one with rename field") := by
  simp [save_name, h]

/-- C9 witness: a concrete parse with segments `dir` and `pkg%20v1.zip`. -/
theorem http_save_name_last_segment_witness :
    save_name (fun _ => .ok ⟨some "example.com", some ["dir", "pkg%20v1.zip"]⟩)
        "m" (.http "http://example.com/dir/pkg%20v1.zip" none)
      = (match (ParsedUrl.mk (some "example.com")
            (some ["dir", "pkg%20v1.zip"])).path_segments with
         | none => .error "Could not decide archive name - provide one with rename field"
         | some segs =>
           match segs.getLast? with
           | some seg => .ok (percentDecode seg)
           | none => .error "Could not decide archive name - provide one with rename field") :=
  http_save_name_last_segment
    (fun _ => .ok ⟨some "example.com", some ["dir", "pkg%20v1.zip"]⟩)
    "http://example.com/dir/pkg%20v1.zip" "m"
    ⟨some "example.com", some ["dir", "pkg%20v1.zip"]⟩ rfl

/-- `FileModuleOrigin` (module/file_module_origin.rs, consumed here): an
absolute or manifest-local file origin, each with an optional glob. -/
inductive FileModuleOrigin where
  | absolute : String → Option String → FileModuleOrigin
  | localOrig : String → Option String → FileModuleOrigin
deriving DecidableEq, Repr

/-- `FileModuleOrigin::glob()`. -/
def FileModuleOrigin.glob : FileModuleOrigin → Option String
  | .absolute _ g => g
  | .localOrig _ g => g

/-- Oracle inputs of the file installer: path canonicalization, existence,
destination-directory creation, the file tree under a base directory, and the
outcome of a single copy operation (each copy step is abstracted by this
oracle). -/
structure InstWorld where
  canonicalize : String → Except String RPath
  existsAt : RPath → Bool
  ensureOutcome : Except String Unit
  srcTree : RPath → List (List String)
  copyOutcome : Except String Unit

/-- `FileInstaller` state relevant to origin resolution: the configured
`local_files` subdirectory and the manifest root directory. -/
structure Installer where
  local_files : Option String
  manifest_root : RPath

/-- `check_absolute` (src/file_installer.rs lines 173-185): canonicalize, then
require the result absolute, existing, and not the filesystem root. -/
def check_absolute (w : InstWorld) (path : String) : Except String RPath :=
  match w.canonicalize path with
  | .error e => .error e
  | .ok p =>
    if !p.abs then .error ("path is not absolute: " ++ path)
    else if !(w.existsAt p) then .error ("path does not exist: " ++ path)
    else if p.comps.isEmpty then
      .error ("path is not allowed as absolute origin base: " ++ path)
    else .ok p

/-- `FileInstaller::get_origin_base` (src/file_installer.rs lines 54-59). -/
def get_origin_base (w : InstWorld) (inst : Installer) :
    FileModuleOrigin → Except String RPath
  | .absolute p _ => check_absolute w p
  | .localOrig p _ => get_local_base_path inst.manifest_root inst.local_files p

/-- A resolved origin: base directory plus optional glob (the ephemeral
`CopyGlob` of src/file_installer.rs lines 214-217). -/
structure CopyGlob where
  base : RPath
  glob : Option String
deriving Repr

/-- `FileInstaller::get_file_globs` (src/file_installer.rs lines 36-52): map
every origin to its resolved base paired with its glob, and fail when any
resolution failed, before anything is copied. -/
def get_file_globs (w : InstWorld) (inst : Installer)
    (origins : List FileModuleOrigin) : Except String (List CopyGlob) :=
  let results := origins.map (fun o => (get_origin_base w inst o, o.glob))
  if results.any (fun r => isFailure r.1) then
    .error "Could not assemble FileModuleOrigins"
  else
    .ok (results.filterMap (fun r =>
      match r.1 with
      | .ok b => some ⟨b, r.2⟩
      | .error _ => none))

/-- Observable effects of one copy run. -/
inductive CopyEvent where
  | ensuredDir : RPath → CopyEvent
  | copiedTree : RPath → RPath → CopyEvent
  | copiedFile : List String → RPath → CopyEvent
deriving DecidableEq, Repr

/-- Per-file copy loop of the glob branch of `copy_from_glob`
(src/file_installer.rs lines 125-127): the first copy failure aborts. -/
def copyFiles (w : InstWorld) (target : RPath) :
    List (List String) → Except String Unit × List CopyEvent
  | [] => (.ok (), [])
  | f :: rest =>
    match w.copyOutcome with
    | .error e => (.error e, [])
    | .ok _ =>
      let out := copyFiles w target rest
      (out.1, .copiedFile f target :: out.2)

/-- `FileInstaller::copy_from_glob` (src/file_installer.rs lines 107-131):
without a glob, copy the whole base tree; with one, copy each matching file
under the base (case-insensitive, no depth restriction). -/
def copy_from_glob (w : InstWorld) (cg : CopyGlob) (target : RPath) :
    Except String Unit × List CopyEvent :=
  match cg.glob with
  | none =>
    (match w.copyOutcome with
     | .error e => (.error e, [])
     | .ok _ => (.ok (), [.copiedTree cg.base target]))
  | some g =>
    copyFiles w target ((w.srcTree cg.base).filter (fun f =>
      globMatch (parseGlobPat g) (f.map String.data)))

/-- Loop of `copy_from_globs` over the resolved origins, aborting on the first
failure. -/
def copyGlobsLoop (w : InstWorld) (target : RPath) :
    List CopyGlob → Except String Unit × List CopyEvent
  | [] => (.ok (), [])
  | cg :: rest =>
    match copy_from_glob w cg target with
    | (.error e, evs) => (.error e, evs)
    | (.ok _, evs) =>
      let out := copyGlobsLoop w target rest
      (out.1, evs ++ out.2)

/-- `FileInstaller::copy_from_globs` (src/file_installer.rs lines 97-105):
ensure the destination directory exists, then copy origin by origin. -/
def copy_from_globs (w : InstWorld) (globs : List CopyGlob) (target : RPath) :
    Except String Unit × List CopyEvent :=
  match w.ensureOutcome with
  | .error e => (.error ("ensure dirs - error creating destination - " ++ e), [])
  | .ok _ =>
    let out := copyGlobsLoop w target globs
    (out.1, .ensuredDir target :: out.2)

/-- `FileInstaller::copy_from_origins` (src/file_installer.rs lines 26-29):
resolve every origin first, then copy. -/
def copy_from_origins (w : InstWorld) (inst : Installer)
    (origins : List FileModuleOrigin) (target : RPath) :
    Except String Unit × List CopyEvent :=
  match get_file_globs w inst origins with
  | .error e => (.error e, [])
  | .ok globs => copy_from_globs w globs target

/-- C10: when resolving any origin of the list fails, `copy_from_origins`
fails and produces no effect at all — nothing is copied from any origin. -/
theorem copy_from_origins_resolution_failure
    (w : InstWorld) (inst : Installer) (origins : List FileModuleOrigin)
    (target : RPath) (o : FileModuleOrigin) (msg : String)
    (h1 : o ∈ origins) (h2 : get_origin_base w inst o = .error msg) :
    isFailure (copy_from_origins w inst origins target).1 = true
    ∧ (copy_from_origins w inst origins target).2 = [] := by
  have hany : (origins.map (fun o2 => (get_origin_base w inst o2, o2.glob))).any
      (fun r => isFailure r.1) = true := by
    rw [List.any_eq_true]
    exact ⟨(get_origin_base w inst o, o.glob),
      List.mem_map_of_mem _ h1, by simp [h2, isFailure]⟩
  simp only [copy_from_origins, get_file_globs]
  rw [hany]
  simp [isFailure]

/-- Fixture installer world for the C10 witness. -/
def c10w : InstWorld :=
  ⟨fun _ => .error "no canonical path", fun _ => true, .ok (), fun _ => [],
    .ok ()⟩

/-- C10 witness: a local origin configured with an absolute user path fails
resolution and nothing is copied. -/
theorem copy_from_origins_resolution_failure_witness :
    isFailure (copy_from_origins c10w ⟨none, ⟨true, ["root"]⟩⟩
        [.localOrig "/abs" none] ⟨true, ["dest"]⟩).1 = true
    ∧ (copy_from_origins c10w ⟨none, ⟨true, ["root"]⟩⟩
        [.localOrig "/abs" none] ⟨true, ["dest"]⟩).2 = [] :=
  copy_from_origins_resolution_failure c10w ⟨none, ⟨true, ["root"]⟩⟩
    [.localOrig "/abs" none] ⟨true, ["dest"]⟩ (.localOrig "/abs" none)
    "Invalid local value" (by decide) (by decide)
